import Mathlib

/-!
Shallow embedding of the quiz-management backend
(`src/controller/quizController.js` together with the schemas in
`src/models/`).  Documents are modelled as Lean structures, the three
Mongo collections as lists held in a `DB` record, and each controller
handler as a pure function from its request data and the current `DB`
to a response value and the updated `DB`.

Conventions used throughout:
* Mongo object ids are modelled as `Nat`.
* JavaScript falsiness of a string field is modelled by the empty
  string, of a number field by `0`, and of an optional array-valued
  field by the dedicated `JsField` type below (a JS array is always
  truthy, even when empty).
* JavaScript number division is exact here (`Rat`); the single place
  where the code can divide by zero (`percentage` when a quiz has no
  questions) yields `NaN` in JS and is modelled as `none`.
* A thrown JS runtime error (e.g. reading `.selectedOption` of
  `undefined`) is modelled with `Except`/an explicit `thrown`
  response constructor.
-/

/-- A JavaScript value in a slot that the controller tests with `!x`
and `Array.isArray(x)`: either falsy (missing, `null`, `""`, `0`),
truthy but not an array, or an array (arrays are truthy in JS even
when empty). -/
inductive JsField (α : Type) where
  | falsy
  | nonArr
  | arr (xs : List α)
  deriving DecidableEq, Repr

/-- The JS `!x` test on a `JsField`. -/
def jsFalsy {α : Type} : JsField α → Bool
  | .falsy => true
  | _ => false

/-- The JS `Array.isArray(x)` test on a `JsField`. -/
def jsIsArr {α : Type} : JsField α → Bool
  | .arr _ => true
  | _ => false

/-- An embedded question of a stored quiz (`quizSchema.js`): the
subdocument id `qid` models the mongoose `_id` used by
`deleteQuestion`. -/
structure Question where
  qid : Nat
  question : String
  options : List String
  correctAnswer : String
  deriving DecidableEq, Repr

/-- A stored quiz document (`quizSchema.js`); `createdAt` models the
`timestamps: true` creation time used by the `createdAt: -1` sorts. -/
structure Quiz where
  qzid : Nat
  title : String
  description : String
  questions : List Question
  duration : Nat
  createdBy : Nat
  createdAt : Nat
  deriving DecidableEq, Repr

/-- One element of the `answers` array of a submission request body:
an object carrying a `selectedOption`. -/
structure AnswerInput where
  selectedOption : String
  deriving DecidableEq, Repr

/-- One element of the question snapshot stored inside a
`CompletedQuiz` document by `submitQuiz`. -/
structure AnswerSnapshot where
  question : String
  options : List String
  correctAnswer : String
  selectedOption : String
  deriving DecidableEq, Repr

/-- A `CompletedQuiz` document: one student's graded attempt.
`percentage` is `none` exactly when the JS computation produced `NaN`
(quiz with zero questions). -/
structure CompletedAttempt where
  student : Nat
  quiz : Nat
  score : Nat
  totalQuestions : Nat
  percentage : Option Rat
  questions : List AnswerSnapshot
  completedAt : Nat
  deriving DecidableEq, Repr

/-- A `Score` document, used only for the leaderboard. -/
structure ScoreRecord where
  quizId : Nat
  studentId : Nat
  score : Nat
  totalQuestions : Nat
  percentage : Option Rat
  deriving DecidableEq, Repr

/-- The three Mongo collections the quiz controller touches, in
storage order. -/
structure DB where
  quizzes : List Quiz
  attempts : List CompletedAttempt
  scores : List ScoreRecord
  deriving DecidableEq, Repr

/-- The `percentage` computation `(score / quiz.questions.length) * 100`
of `submitQuiz`; `none` models the JS `NaN` arising for a quiz with
zero questions. -/
def percentageOf (score total : Nat) : Option Rat :=
  if total = 0 then none else some ((score : Rat) / (total : Rat) * 100)

/-- One question object of the request body of `addQuiz`/`updateQuiz`:
string fields use `""` for a missing/falsy value, `options` may be any
JS value. -/
structure QuestionInput where
  question : String
  options : JsField String
  correctAnswer : String
  deriving DecidableEq, Repr

/-- The request body of `addQuiz` and `updateQuiz`. -/
structure QuizBody where
  title : String
  description : String
  questions : JsField QuestionInput
  duration : Nat
  deriving DecidableEq, Repr

/-- The per-question validation of `addQuiz`/`updateQuiz` (lines 26-33
and 66-73 of the controller): first the falsiness checks on
`question`, `options`, `correctAnswer`, then the
`Array.isArray(options) && options.length > 0` check. Returns the
error message of the first failing check. -/
def questionErr (q : QuestionInput) : Option String :=
  if q.question == "" || jsFalsy q.options || q.correctAnswer == "" then
    some "Each question must have a question, options, and correctAnswer!"
  else
    match q.options with
    | .arr opts => if opts.isEmpty then some "Options must be a non-empty array!" else none
    | _ => some "Options must be a non-empty array!"

/-- The `for (const question of questions)` validation loop: error of
the first invalid question, if any. -/
def questionsErr : List QuestionInput → Option String
  | [] => none
  | q :: qs =>
    match questionErr q with
    | some e => some e
    | none => questionsErr qs

/-- The shared request-body validation of `addQuiz` and `updateQuiz`
(the controller repeats these lines verbatim in both handlers). -/
def validateQuizBody (b : QuizBody) : Option String :=
  if b.title == "" || jsFalsy b.questions || b.duration == 0 then
    some "Title, questions, and duration are required!"
  else
    match b.questions with
    | .arr qs =>
      if qs.isEmpty then some "Questions must be a non-empty array!"
      else questionsErr qs
    | _ => some "Questions must be a non-empty array!"

/-- Conversion of a validated input question to a stored question;
mongoose assigns the subdocument `_id`, modelled here by the position
index. The `.arr` case is the only one reached after validation. -/
def toQuestion (i : Nat) (q : QuestionInput) : Question :=
  { qid := i
    question := q.question
    options := match q.options with | .arr xs => xs | _ => []
    correctAnswer := q.correctAnswer }

/-- The stored question list built from a validated `questions` body
field. -/
def bodyQuestions (f : JsField QuestionInput) : List Question :=
  match f with
  | .arr l => (l.enum).map (fun p => toQuestion p.1 p.2)
  | _ => []

/-- Response of the quiz-authoring handlers: a 400 `ErrorHandler`
validation error, a 404 `ErrorHandler`, or a success carrying the
created/updated quiz. -/
inductive QuizResp where
  | validationErr (msg : String)
  | notFoundErr
  | ok (quiz : Quiz)
  deriving DecidableEq, Repr

/-- The `addQuiz` handler (controller lines 12-49): validation, then
`Quiz.create` with `createdBy = req.user.id`. `newId`/`now` model the
id and timestamp the store assigns. -/
def addQuiz (b : QuizBody) (creatorId newId now : Nat) (db : DB) : QuizResp × DB :=
  match validateQuizBody b with
  | some msg => (.validationErr msg, db)
  | none =>
    let newQuiz : Quiz :=
      { qzid := newId
        title := b.title
        description := b.description
        questions := bodyQuestions b.questions
        duration := b.duration
        createdBy := creatorId
        createdAt := now }
    (.ok newQuiz, { db with quizzes := db.quizzes ++ [newQuiz] })

/-- The `updateQuiz` handler (controller lines 52-91): the same
validation as `addQuiz`, then `findByIdAndUpdate` replacing title,
description, questions and duration; 404 when the id resolves to no
quiz. -/
def updateQuiz (id : Nat) (b : QuizBody) (db : DB) : QuizResp × DB :=
  match validateQuizBody b with
  | some msg => (.validationErr msg, db)
  | none =>
    match db.quizzes.find? (fun q => q.qzid == id) with
    | none => (.notFoundErr, db)
    | some old =>
      let upd : Quiz :=
        { old with
            title := b.title
            description := b.description
            questions := bodyQuestions b.questions
            duration := b.duration }
      (.ok upd, { db with quizzes := db.quizzes.map (fun q => if q.qzid == id then upd else q) })

/-- Response of `deleteQuestion`: 404 `ErrorHandler` or success. -/
inductive DelResp where
  | notFoundErr
  | ok
  deriving DecidableEq, Repr

/-- The `deleteQuestion` handler (controller lines 113-132): 404 when
the quiz is absent, otherwise filter the question with the matching
subdocument id out of `quiz.questions` and `save()` the document (a
no-op when nothing matches). -/
def deleteQuestion (quizId questionId : Nat) (db : DB) : DelResp × DB :=
  match db.quizzes.find? (fun q => q.qzid == quizId) with
  | none => (.notFoundErr, db)
  | some quiz =>
    let quiz' : Quiz :=
      { quiz with questions := quiz.questions.filter (fun q => q.qid != questionId) }
    (.ok, { db with quizzes := db.quizzes.map (fun q => if q.qzid == quizId then quiz' else q) })

/-- Insertion step of a descending sort on a `Nat` key, modelling a
Mongo `.sort({key: -1})`. -/
def insertDescBy {α : Type} (key : α → Nat) (a : α) : List α → List α
  | [] => [a]
  | b :: bs => if key b < key a then a :: b :: bs else b :: insertDescBy key a bs

/-- Descending sort on a `Nat` key, modelling a Mongo
`.sort({key: -1})` (no tie-break). -/
def sortDescBy {α : Type} (key : α → Nat) : List α → List α
  | [] => []
  | a :: rest => insertDescBy key a (sortDescBy key rest)

/-- The `Quiz.findOne().sort({ createdAt: -1 })` query used by
`getAllQuizzes` and `getLatestQuiz`: the most recently created quiz,
or `none` on an empty store. -/
def latestQuiz (qs : List Quiz) : Option Quiz :=
  (sortDescBy (fun q => q.createdAt) qs).head?

/-- The `getAllQuizzes` handler (controller lines 136-151): every
quiz for an admin; otherwise the latest quiz consed onto the
requester's completed attempts with their `quiz` reference resolved
by `populate` (a dangling reference resolves to `null`), with
`.filter(Boolean)` dropping the `null`/`none` entries. -/
def getAllQuizzes (role : String) (userId : Nat) (db : DB) : List Quiz :=
  if role == "admin" then db.quizzes
  else
    let latest := latestQuiz db.quizzes
    let completedQuizIds := (db.attempts.filter (fun a => a.student == userId)).map
      (fun a => db.quizzes.find? (fun q => q.qzid == a.quiz))
    (latest :: completedQuizIds).filterMap id

/-- Response of `submitQuiz`: a direct `res.status(s).json({success,
..., result})`, a `next(new ErrorHandler(msg, status))`, or an
uncaught JS runtime error forwarded by `catchAsyncErrors`. -/
inductive HResp where
  | json (status : Nat) (success : Bool) (result : Option CompletedAttempt)
  | handlerError (msg : String) (status : Nat)
  | thrown (msg : String)
  deriving DecidableEq, Repr

/-- Modelled from the spec: the centralized error responder
(`middlewares/error.js` is referenced by the controller but not part
of the repository sources).  Per section 7 of the specification an
`ErrorHandler` carries its explicit status code and any other thrown
error surfaces as an InternalError 500. -/
def respStatus : HResp → Nat
  | .json s _ _ => s
  | .handlerError _ s => s
  | .thrown _ => 500

/-- The scoring loop of `submitQuiz` (controller lines 184-187):
`quiz.questions.forEach((q, index) => { if (q.correctAnswer ===
answers[index].selectedOption) score++; })`.  Reading `answers[index]`
past the end of the array yields `undefined`, so the `.selectedOption`
access throws; the count accumulated so far is then discarded by the
exception. -/
def scoreLoop (ans : List AnswerInput) : List Question → Nat → Except String Nat
  | [], _ => .ok 0
  | q :: qs, idx =>
    match ans[idx]? with
    | none => .error "TypeError: Cannot read properties of undefined (reading selectedOption)"
    | some a =>
      match scoreLoop ans qs (idx + 1) with
      | .error e => .error e
      | .ok rest => .ok ((if q.correctAnswer == a.selectedOption then 1 else 0) + rest)

/-- The full scoring step of `submitQuiz`: when the quiz has no
questions the `forEach` body never runs (score `0`, even with
`answers` missing); a missing `answers` otherwise throws at the first
index access. -/
def computeScore (qs : List Question) (ans : Option (List AnswerInput)) : Except String Nat :=
  match qs, ans with
  | [], _ => .ok 0
  | _ :: _, none => .error "TypeError: Cannot read properties of undefined (reading 0)"
  | q :: qs, some l => scoreLoop l (q :: qs) 0

/-- The snapshot construction of `submitQuiz` (controller lines
198-203): `quiz.questions.map((q, index) => ({..., selectedOption:
answers[index].selectedOption}))`, which performs the same
`answers[index]` accesses as the scoring loop. -/
def snapLoop (ans : List AnswerInput) : List Question → Nat → Except String (List AnswerSnapshot)
  | [], _ => .ok []
  | q :: qs, idx =>
    match ans[idx]? with
    | none => .error "TypeError: Cannot read properties of undefined (reading selectedOption)"
    | some a =>
      match snapLoop ans qs (idx + 1) with
      | .error e => .error e
      | .ok rest =>
        .ok ({ question := q.question
               options := q.options
               correctAnswer := q.correctAnswer
               selectedOption := a.selectedOption } :: rest)

/-- Top-level snapshot construction, with the same treatment of a
missing `answers` as `computeScore`. -/
def mkSnapshot (qs : List Question) (ans : Option (List AnswerInput)) :
    Except String (List AnswerSnapshot) :=
  match qs, ans with
  | [], _ => .ok []
  | _ :: _, none => .error "TypeError: Cannot read properties of undefined (reading 0)"
  | q :: qs, some l => snapLoop l (q :: qs) 0

/-- The `submitQuiz` handler (controller lines 166-234).
`scoreCreateFails` models whether the external `Score.create` call in
the `try` block fails; `now` models the `completedAt` timestamp the
store assigns.  Control flow: prior-attempt check (a direct 400
response carrying the previous attempt), quiz lookup (404), scoring
and snapshot (both may throw), `CompletedQuiz.create`, then
`Score.create` whose failure is answered with a 500 `ErrorHandler`
while the attempt stays committed. -/
def submitQuiz (scoreCreateFails : Bool) (quizId userId now : Nat)
    (answers : Option (List AnswerInput)) (db : DB) : HResp × DB :=
  match db.attempts.find? (fun a => a.quiz == quizId && a.student == userId) with
  | some previousAttempt => (.json 400 false (some previousAttempt), db)
  | none =>
    match db.quizzes.find? (fun q => q.qzid == quizId) with
    | none => (.handlerError "Quiz not found" 404, db)
    | some quiz =>
      match computeScore quiz.questions answers with
      | .error e => (.thrown e, db)
      | .ok score =>
        match mkSnapshot quiz.questions answers with
        | .error e => (.thrown e, db)
        | .ok snap =>
          let pct := percentageOf score quiz.questions.length
          let attempt : CompletedAttempt :=
            { student := userId
              quiz := quizId
              score := score
              totalQuestions := quiz.questions.length
              percentage := pct
              questions := snap
              completedAt := now }
          let db1 : DB := { db with attempts := db.attempts ++ [attempt] }
          if scoreCreateFails then
            (.handlerError "Failed to save score" 500, db1)
          else
            let record : ScoreRecord :=
              { quizId := quizId
                studentId := userId
                score := score
                totalQuestions := quiz.questions.length
                percentage := pct }
            (.json 200 true (some attempt), { db1 with scores := db1.scores ++ [record] })

/-- Response of `getQuizLeaderboard`: a direct 400 JSON response when
`quizId` is falsy, or the sorted leaderboard. -/
inductive LeaderboardResp where
  | badRequest
  | ok (entries : List ScoreRecord)
  deriving DecidableEq, Repr

/-- The `getQuizLeaderboard` handler (controller lines 236-257):
`Score.find({quizId}).sort({score: -1})`.  The `.populate` step only
enriches the student reference with display data and does not affect
the fields modelled here. -/
def getQuizLeaderboard (quizId : Option Nat) (db : DB) : LeaderboardResp :=
  match quizId with
  | none => .badRequest
  | some qid =>
    .ok (sortDescBy (fun r => r.score) (db.scores.filter (fun r => r.quizId == qid)))

/-- The `score` summary object built for each entry of the
`getCompletedQuizzes` response. -/
structure ScoreSummary where
  score : Nat
  totalQuestions : Nat
  completedAt : Nat
  deriving DecidableEq, Repr

/-- One formatted entry of the `getCompletedQuizzes` response. -/
structure FormattedAttempt where
  summary : ScoreSummary
  quiz : Quiz
  deriving DecidableEq, Repr

/-- Response of `getCompletedQuizzes`: 404 `ErrorHandler` or the
formatted list. -/
inductive CompletedResp where
  | notFoundErr
  | ok (items : List FormattedAttempt)
  deriving DecidableEq, Repr

/-- Resolution and formatting of one attempt by `getCompletedQuizzes`:
`populate` resolves the `quiz` reference (`none` when the quiz was
deleted); the `.filter(q => q.quiz !== null).map(format)` pair is the
`filterMap` of this function. -/
def resolveAttempt (db : DB) (a : CompletedAttempt) : Option FormattedAttempt :=
  (db.quizzes.find? (fun q => q.qzid == a.quiz)).map
    (fun qz =>
      { summary := { score := a.score, totalQuestions := a.totalQuestions, completedAt := a.completedAt }
        quiz := qz })

/-- The `getCompletedQuizzes` handler (controller lines 291-324):
fetch the student's attempts sorted `completedAt: -1`, answer 404 when
that raw list is empty (the emptiness check runs before the
dangling-quiz filter), otherwise drop entries whose quiz no longer
exists and format the rest. -/
def getCompletedQuizzes (studentId : Nat) (db : DB) : CompletedResp :=
  let completedQuizzes :=
    sortDescBy (fun a => a.completedAt) (db.attempts.filter (fun a => a.student == studentId))
  if completedQuizzes.isEmpty then .notFoundErr
  else .ok (completedQuizzes.filterMap (resolveAttempt db))

/-- Spec-side scoring formula: the count of indices `i` at which
`question[i].correctAnswer` equals `answers[i].selectedOption`. -/
def idxMatchCount (qs : List Question) (ans : List AnswerInput) : Nat :=
  ((qs.zip ans).filter (fun p => p.1.correctAnswer == p.2.selectedOption)).length

/-- Spec-side invalidity of one submitted question, following the
claim's wording: the question lacks text, options or correctAnswer,
or its options value is not a non-empty array. -/
def questionInvalid (q : QuestionInput) : Prop :=
  q.question = "" ∨ jsFalsy q.options = true ∨ q.correctAnswer = ""
    ∨ ¬ ∃ opts, q.options = .arr opts ∧ opts ≠ []

/-- Spec-side rejection condition of `addQuiz`/`updateQuiz`, following
the claim's wording: title, questions or duration missing; questions
not a non-empty array; or some question invalid. -/
def addQuizRejects (b : QuizBody) : Prop :=
  b.title = "" ∨ jsFalsy b.questions = true ∨ b.duration = 0
    ∨ (¬ ∃ qs, b.questions = .arr qs ∧ qs ≠ [])
    ∨ ∃ qs, b.questions = .arr qs ∧ ∃ q ∈ qs, questionInvalid q

/-- Spec-side reading of an "HTTP-level success-with-flag response":
a direct JSON response whose status code lies in the 2xx range. -/
def isHttpSuccess (r : HResp) : Prop :=
  ∃ s b p, r = HResp.json s b p ∧ 200 ≤ s ∧ s < 300

/-- Example quiz of the specification's scoring example: three
questions whose correct answers are A, B, C. -/
def exQuiz3 : Quiz :=
  { qzid := 1
    title := "Example quiz"
    description := ""
    questions :=
      [ { qid := 0, question := "Q1", options := ["A", "B", "X"], correctAnswer := "A" }
      , { qid := 1, question := "Q2", options := ["A", "B", "X"], correctAnswer := "B" }
      , { qid := 2, question := "Q3", options := ["A", "B", "X"], correctAnswer := "C" } ]
    duration := 10
    createdBy := 2
    createdAt := 1 }

/-- Example submission of the specification's scoring example:
selections A, B, X. -/
def exAns3 : List AnswerInput :=
  [ { selectedOption := "A" }, { selectedOption := "B" }, { selectedOption := "X" } ]

/-- Store holding only `exQuiz3`, with no prior attempts. -/
def exDb : DB := { quizzes := [exQuiz3], attempts := [], scores := [] }

/-- A previously recorded attempt of student 10 on quiz 1, used to
exercise the already-taken branch of `submitQuiz`. -/
def prevAttempt : CompletedAttempt :=
  { student := 10
    quiz := 1
    score := 1
    totalQuestions := 3
    percentage := some (100 / 3)
    questions := []
    completedAt := 7 }

/-- Store in which student 10 already took quiz 1. -/
def dbTaken : DB := { quizzes := [exQuiz3], attempts := [prevAttempt], scores := [] }

/-- Second quiz, created later than `exQuiz3`, for the listing
example. -/
def exQuizB : Quiz :=
  { qzid := 2
    title := "Second quiz"
    description := ""
    questions := [ { qid := 0, question := "Q", options := ["A"], correctAnswer := "A" } ]
    duration := 5
    createdBy := 2
    createdAt := 9 }

/-- Store for the listing example: two quizzes; student 10 completed
both, the more recent one first in storage order. -/
def dbListing : DB :=
  { quizzes := [exQuiz3, exQuizB]
    attempts :=
      [ { student := 10, quiz := 2, score := 1, totalQuestions := 1
          percentage := some 100, questions := [], completedAt := 11 }
      , { student := 10, quiz := 1, score := 2, totalQuestions := 3
          percentage := some (200 / 3), questions := [], completedAt := 12 } ]
    scores := [] }

/-- Store in which student 7 has one attempt whose quiz was deleted:
the attempt references quiz 3 but the quiz store is empty. -/
def dbDangling : DB :=
  { quizzes := []
    attempts :=
      [ { student := 7, quiz := 3, score := 1, totalQuestions := 2
          percentage := some 50, questions := [], completedAt := 4 } ]
    scores := [] }

/-- A quiz whose question list was emptied (reachable through
`deleteQuestion`, which saves an empty list without complaint). -/
def emptyQuiz : Quiz :=
  { qzid := 5
    title := "Emptied quiz"
    description := ""
    questions := []
    duration := 10
    createdBy := 2
    createdAt := 3 }

/-- Store holding only the emptied quiz, with no prior attempts. -/
def dbEmptyQuiz : DB := { quizzes := [emptyQuiz], attempts := [], scores := [] }

/-- Store with three score records, two of them for quiz 1, for the
leaderboard witness. -/
def dbScores : DB :=
  { quizzes := []
    attempts := []
    scores :=
      [ { quizId := 1, studentId := 10, score := 1, totalQuestions := 3, percentage := none }
      , { quizId := 2, studentId := 11, score := 5, totalQuestions := 5, percentage := none }
      , { quizId := 1, studentId := 12, score := 3, totalQuestions := 3, percentage := none } ] }

/-- The leaderboard computed for quiz 1 over `dbScores`: both quiz-1
records, higher score first. -/
def lbEntries : List ScoreRecord :=
  [ { quizId := 1, studentId := 12, score := 3, totalQuestions := 3, percentage := none }
  , { quizId := 1, studentId := 10, score := 1, totalQuestions := 3, percentage := none } ]

/-- The formatted history returned for student 10 on `dbListing`:
newest attempt first, quiz references resolved. -/
def listingItems : List FormattedAttempt :=
  [ { summary := { score := 2, totalQuestions := 3, completedAt := 12 }, quiz := exQuiz3 }
  , { summary := { score := 1, totalQuestions := 1, completedAt := 11 }, quiz := exQuizB } ]

/-- A request body failing the first validation check of
`addQuiz`. -/
def badBody : QuizBody :=
  { title := "", description := "", questions := JsField.falsy, duration := 0 }

/-- The attempt created by submitting `exAns3` to `exQuiz3` as
student 10 at time 20. -/
def exAttempt : CompletedAttempt :=
  { student := 10
    quiz := 1
    score := 2
    totalQuestions := 3
    percentage := some (200 / 3)
    questions :=
      [ { question := "Q1", options := ["A", "B", "X"], correctAnswer := "A", selectedOption := "A" }
      , { question := "Q2", options := ["A", "B", "X"], correctAnswer := "B", selectedOption := "B" }
      , { question := "Q3", options := ["A", "B", "X"], correctAnswer := "C", selectedOption := "X" } ]
    completedAt := 20 }

/-- Membership is preserved by the descending-insert step. -/
theorem mem_insertDescBy {α : Type} (key : α → Nat) (a x : α) (l : List α) :
    x ∈ insertDescBy key a l ↔ x = a ∨ x ∈ l := by
  induction l with
  | nil => simp [insertDescBy]
  | cons b bs ih =>
    simp only [insertDescBy]
    split
    · simp [List.mem_cons]
    · simp only [List.mem_cons, ih]
      tauto

/-- The descending-insert step preserves the descending-sortedness
invariant. -/
theorem pairwise_insertDescBy {α : Type} (key : α → Nat) (a : α) (l : List α)
    (h : l.Pairwise (fun x y => key y ≤ key x)) :
    (insertDescBy key a l).Pairwise (fun x y => key y ≤ key x) := by
  induction l with
  | nil => simp [insertDescBy]
  | cons b bs ih =>
    have hb := (List.pairwise_cons.mp h).1
    have hbs := (List.pairwise_cons.mp h).2
    simp only [insertDescBy]
    split
    · rename_i hlt
      refine List.pairwise_cons.mpr ⟨?_, h⟩
      intro y hy
      rcases List.mem_cons.mp hy with rfl | hy
      · omega
      · have := hb y hy; omega
    · rename_i hnlt
      refine List.pairwise_cons.mpr ⟨?_, ih hbs⟩
      intro y hy
      rcases (mem_insertDescBy key a y bs).mp hy with rfl | hy
      · omega
      · exact hb y hy

/-- `sortDescBy` yields a list sorted descending on the key. -/
theorem pairwise_sortDescBy {α : Type} (key : α → Nat) (l : List α) :
    (sortDescBy key l).Pairwise (fun x y => key y ≤ key x) := by
  induction l with
  | nil => simp [sortDescBy]
  | cons a rest ih => exact pairwise_insertDescBy key a _ ih

/-- Membership is preserved by `sortDescBy`. -/
theorem mem_sortDescBy {α : Type} (key : α → Nat) (x : α) (l : List α) :
    x ∈ sortDescBy key l ↔ x ∈ l := by
  induction l with
  | nil => simp [sortDescBy]
  | cons a rest ih => simp [sortDescBy, mem_insertDescBy, ih]

/-- Length is preserved by the descending-insert step. -/
theorem length_insertDescBy {α : Type} (key : α → Nat) (a : α) (l : List α) :
    (insertDescBy key a l).length = l.length + 1 := by
  induction l with
  | nil => rfl
  | cons b bs ih =>
    simp only [insertDescBy]
    split
    · rfl
    · simp [ih]

/-- Length is preserved by `sortDescBy`. -/
theorem length_sortDescBy {α : Type} (key : α → Nat) (l : List α) :
    (sortDescBy key l).length = l.length := by
  induction l with
  | nil => rfl
  | cons a rest ih => simp [sortDescBy, length_insertDescBy, ih]

/-- `sortDescBy` sorts to the empty list exactly from the empty
list. -/
theorem sortDescBy_eq_nil_iff {α : Type} (key : α → Nat) (l : List α) :
    sortDescBy key l = [] ↔ l = [] := by
  constructor
  · intro h
    have := length_sortDescBy key l
    rw [h] at this
    exact List.length_eq_zero.mp this.symm
  · intro h; subst h; rfl

/-- Unrolling of the spec-side match count on cons cells. -/
theorem idxMatchCount_cons (q : Question) (qs : List Question)
    (a : AnswerInput) (rest : List AnswerInput) :
    idxMatchCount (q :: qs) (a :: rest)
      = (if q.correctAnswer == a.selectedOption then 1 else 0) + idxMatchCount qs rest := by
  simp only [idxMatchCount, List.zip_cons_cons, List.filter_cons]
  split <;> simp [Nat.add_comm]

/-- When the answers cover all remaining indices, the scoring loop
succeeds and returns the position-aligned match count of the
remaining questions against the remaining answers. -/
theorem scoreLoop_ok_of_cov (l : List AnswerInput) :
    ∀ (qs : List Question) (idx : Nat), idx + qs.length ≤ l.length →
      scoreLoop l qs idx = .ok (idxMatchCount qs (l.drop idx)) := by
  intro qs
  induction qs with
  | nil => intro idx h; simp [scoreLoop, idxMatchCount]
  | cons q qs ih =>
    intro idx h
    have hidx : idx < l.length := by simp only [List.length_cons] at h; omega
    have hget : l[idx]? = some l[idx] := List.getElem?_eq_getElem hidx
    have hrec := ih (idx + 1) (by simp only [List.length_cons] at h; omega)
    have hdrop : l.drop idx = l[idx] :: l.drop (idx + 1) := List.drop_eq_getElem_cons hidx
    simp only [scoreLoop, hget, hrec, hdrop, idxMatchCount_cons]

/-- The scoring loop never counts more than the number of remaining
questions. -/
theorem scoreLoop_le (l : List AnswerInput) :
    ∀ (qs : List Question) (idx n : Nat), scoreLoop l qs idx = .ok n → n ≤ qs.length := by
  intro qs
  induction qs with
  | nil =>
    intro idx n h
    simp only [scoreLoop] at h
    cases h
    simp
  | cons q qs ih =>
    intro idx n h
    simp only [scoreLoop] at h
    cases hget : l[idx]? with
    | none => rw [hget] at h; cases h
    | some a =>
      rw [hget] at h
      cases hrec : scoreLoop l qs (idx + 1) with
      | error e => rw [hrec] at h; cases h
      | ok m =>
        rw [hrec] at h
        cases h
        have := ih (idx + 1) m hrec
        simp only [List.length_cons]
        split <;> omega

/-- Whenever the scoring loop succeeds, the snapshot loop succeeds as
well (it performs the same index accesses). -/
theorem snapLoop_ok (l : List AnswerInput) :
    ∀ (qs : List Question) (idx n : Nat), scoreLoop l qs idx = .ok n →
      ∃ sn, snapLoop l qs idx = .ok sn := by
  intro qs
  induction qs with
  | nil => intro idx n _; exact ⟨[], rfl⟩
  | cons q qs ih =>
    intro idx n h
    simp only [scoreLoop] at h
    cases hget : l[idx]? with
    | none => rw [hget] at h; cases h
    | some a =>
      rw [hget] at h
      cases hrec : scoreLoop l qs (idx + 1) with
      | error e => rw [hrec] at h; cases h
      | ok m =>
        obtain ⟨sn, hsn⟩ := ih (idx + 1) m hrec
        refine ⟨{ question := q.question, options := q.options,
                  correctAnswer := q.correctAnswer,
                  selectedOption := a.selectedOption } :: sn, ?_⟩
        simp only [snapLoop, hget, hsn]

/-- When the answers run out before the (non-empty) remaining
question list does, the scoring loop throws. -/
theorem scoreLoop_error_short (l : List AnswerInput) :
    ∀ (qs : List Question) (idx : Nat), qs ≠ [] → l.length < idx + qs.length →
      ∃ e, scoreLoop l qs idx = .error e := by
  intro qs
  induction qs with
  | nil => intro idx hne _; exact absurd rfl hne
  | cons q qs ih =>
    intro idx _ hshort
    cases hget : l[idx]? with
    | none =>
      exact ⟨"TypeError: Cannot read properties of undefined (reading selectedOption)",
             by simp only [scoreLoop, hget]⟩
    | some a =>
      have hidx : idx < l.length := by
        by_contra hc
        rw [List.getElem?_eq_none (by omega)] at hget
        cases hget
      have hne : qs ≠ [] := by
        intro hnil
        subst hnil
        simp only [List.length_cons, List.length_nil] at hshort
        omega
      obtain ⟨e, he⟩ := ih (idx + 1) hne (by simp only [List.length_cons] at hshort ⊢; omega)
      exact ⟨e, by simp only [scoreLoop, hget, he]⟩

/-- Top-level scoring with full index coverage: the position-aligned
match count. -/
theorem computeScore_ok_of_cov (qs : List Question) (l : List AnswerInput)
    (h : qs.length ≤ l.length) :
    computeScore qs (some l) = .ok (idxMatchCount qs l) := by
  cases qs with
  | nil => simp [computeScore, idxMatchCount]
  | cons q qs =>
    have := scoreLoop_ok_of_cov l (q :: qs) 0 (by simpa using h)
    simpa [computeScore] using this

/-- A successful score never exceeds the question count. -/
theorem computeScore_le (qs : List Question) (ans : Option (List AnswerInput)) (n : Nat)
    (h : computeScore qs ans = .ok n) : n ≤ qs.length := by
  cases qs with
  | nil => simp only [computeScore] at h; cases h; simp
  | cons q qs =>
    cases ans with
    | none => simp only [computeScore] at h; cases h
    | some l => exact scoreLoop_le l (q :: qs) 0 n h

/-- Whenever the scoring step succeeds, the snapshot step succeeds. -/
theorem mkSnapshot_ok (qs : List Question) (ans : Option (List AnswerInput)) (n : Nat)
    (h : computeScore qs ans = .ok n) : ∃ sn, mkSnapshot qs ans = .ok sn := by
  cases qs with
  | nil => exact ⟨[], rfl⟩
  | cons q qs =>
    cases ans with
    | none => simp only [computeScore] at h; cases h
    | some l =>
      obtain ⟨sn, hsn⟩ := snapLoop_ok l (q :: qs) 0 n h
      exact ⟨sn, hsn⟩

/-- The scoring step throws whenever the quiz has at least one
question and the answers array is missing or too short. -/
theorem computeScore_error_short (qs : List Question) (hne : qs ≠ [])
    (ans : Option (List AnswerInput))
    (h : ans = none ∨ ∃ l, ans = some l ∧ l.length < qs.length) :
    ∃ e, computeScore qs ans = .error e := by
  cases qs with
  | nil => exact absurd rfl hne
  | cons q qs =>
    rcases h with rfl | ⟨l, rfl, hlt⟩
    · exact ⟨_, rfl⟩
    · obtain ⟨e, he⟩ := scoreLoop_error_short l (q :: qs) 0 (by simp) (by omega)
      exact ⟨e, he⟩

/-- Division form of `percentageOf` used by the specification:
`100 × score / total` whenever the total is non-zero. -/
theorem percentageOf_eq (s t : Nat) (ht : t ≠ 0) :
    percentageOf s t = some ((100 * s : Rat) / (t : Rat)) := by
  simp only [percentageOf, ht, if_false]
  congr 1
  ring

/-- The already-taken branch of `submitQuiz`: a direct 400 JSON
response carrying the previous attempt, with the store untouched. -/
theorem submitQuiz_prior (sf : Bool) (quizId userId now : Nat)
    (ans : Option (List AnswerInput)) (db : DB) (prev : CompletedAttempt)
    (hp : db.attempts.find? (fun a => a.quiz == quizId && a.student == userId) = some prev) :
    submitQuiz sf quizId userId now ans db = (HResp.json 400 false (some prev), db) := by
  simp only [submitQuiz, hp]

/-- The creating path of `submitQuiz`: with no prior attempt, an
existing quiz and a successful scoring/snapshot step, the handler
commits the new attempt and then either fails with the 500
`ErrorHandler` (when `Score.create` fails) or also commits the score
record and answers 200. -/
theorem submitQuiz_creates (sf : Bool) (quizId userId now : Nat)
    (ans : Option (List AnswerInput)) (db : DB) (quiz : Quiz) (n : Nat)
    (sn : List AnswerSnapshot)
    (hno : db.attempts.find? (fun a => a.quiz == quizId && a.student == userId) = none)
    (hq : db.quizzes.find? (fun q => q.qzid == quizId) = some quiz)
    (hsc : computeScore quiz.questions ans = .ok n)
    (hsn : mkSnapshot quiz.questions ans = .ok sn) :
    submitQuiz sf quizId userId now ans db =
      (if sf then
        (HResp.handlerError "Failed to save score" 500,
         { db with
             attempts := db.attempts ++
               [{ student := userId, quiz := quizId, score := n,
                  totalQuestions := quiz.questions.length,
                  percentage := percentageOf n quiz.questions.length,
                  questions := sn, completedAt := now }] })
      else
        (HResp.json 200 true
          (some { student := userId, quiz := quizId, score := n,
                  totalQuestions := quiz.questions.length,
                  percentage := percentageOf n quiz.questions.length,
                  questions := sn, completedAt := now }),
         { db with
             attempts := db.attempts ++
               [{ student := userId, quiz := quizId, score := n,
                  totalQuestions := quiz.questions.length,
                  percentage := percentageOf n quiz.questions.length,
                  questions := sn, completedAt := now }],
             scores := db.scores ++
               [{ quizId := quizId, studentId := userId, score := n,
                  totalQuestions := quiz.questions.length,
                  percentage := percentageOf n quiz.questions.length }] })) := by
  simp only [submitQuiz, hno, hq, hsc, hsn]

/-- The non-creating error paths of `submitQuiz` (quiz not found, or
the scoring step throws) leave the store untouched. -/
theorem submitQuiz_db_unchanged_of_error (sf : Bool) (quizId userId now : Nat)
    (ans : Option (List AnswerInput)) (db : DB)
    (hno : db.attempts.find? (fun a => a.quiz == quizId && a.student == userId) = none) :
    (db.quizzes.find? (fun q => q.qzid == quizId) = none →
      submitQuiz sf quizId userId now ans db = (HResp.handlerError "Quiz not found" 404, db))
    ∧ ∀ quiz e, db.quizzes.find? (fun q => q.qzid == quizId) = some quiz →
        computeScore quiz.questions ans = .error e →
        submitQuiz sf quizId userId now ans db = (HResp.thrown e, db) := by
  constructor
  · intro hq
    simp only [submitQuiz, hno, hq]
  · intro quiz e hq he
    simp only [submitQuiz, hno, hq, he]

/-- One-question validation agrees with the spec-side invalidity
predicate. -/
theorem questionErr_isSome (q : QuestionInput) :
    (questionErr q).isSome = true ↔ questionInvalid q := by
  cases hopt : q.options with
  | falsy =>
    simp [questionErr, questionInvalid, hopt, jsFalsy]
  | nonArr =>
    simp only [questionErr, questionInvalid, hopt, jsFalsy]
    constructor
    · intro _
      right; right; right
      rintro ⟨opts, hcon, -⟩
      cases hcon
    · intro _
      split <;> simp
  | arr opts =>
    simp only [questionErr, questionInvalid, hopt, jsFalsy]
    constructor
    · intro h
      split at h
      · rename_i hcond
        simp only [Bool.or_eq_true, beq_iff_eq] at hcond
        tauto
      · split at h
        · rename_i hemp
          right; right; right
          rintro ⟨opts', heq, hne⟩
          cases heq
          exact hne (List.isEmpty_iff.mp hemp)
        · simp at h
    · intro h
      rcases h with h | h | h | h
      · simp [h]
      · simp at h
      · simp [h]
      · have hemp : opts = [] := by
          by_contra hne
          exact h ⟨opts, rfl, hne⟩
        subst hemp
        split <;> simp

/-- The validation loop agrees with existence of an invalid
question. -/
theorem questionsErr_isSome (qs : List QuestionInput) :
    (questionsErr qs).isSome = true ↔ ∃ q ∈ qs, questionInvalid q := by
  induction qs with
  | nil => simp [questionsErr]
  | cons q qs ih =>
    simp only [questionsErr]
    cases hq : questionErr q with
    | some e =>
      have hinv : questionInvalid q := (questionErr_isSome q).mp (by simp [hq])
      simp only [Option.isSome_some, true_iff]
      exact ⟨q, List.mem_cons_self q qs, hinv⟩
    | none =>
      have hninv : ¬ questionInvalid q := by
        rw [← questionErr_isSome q, hq]
        simp
      simp only [ih, List.mem_cons]
      constructor
      · rintro ⟨x, hx, hinv⟩
        exact ⟨x, Or.inr hx, hinv⟩
      · rintro ⟨x, hx | hx, hinv⟩
        · subst hx; exact absurd hinv hninv
        · exact ⟨x, hx, hinv⟩

/-- The shared request-body validation agrees with the spec-side
rejection condition. -/
theorem validateQuizBody_isSome (b : QuizBody) :
    (validateQuizBody b).isSome = true ↔ addQuizRejects b := by
  cases hq : b.questions with
  | falsy =>
    simp [validateQuizBody, addQuizRejects, hq, jsFalsy]
  | nonArr =>
    simp only [validateQuizBody, addQuizRejects, hq, jsFalsy]
    constructor
    · intro _
      right; right; right; left
      rintro ⟨qs, hcon, -⟩
      cases hcon
    · intro _
      split <;> simp
  | arr qs =>
    simp only [validateQuizBody, addQuizRejects, hq, jsFalsy]
    constructor
    · intro h
      split at h
      · rename_i hcond
        simp only [Bool.or_eq_true, beq_iff_eq] at hcond
        rcases hcond with ⟨h1 | h2⟩ | h3
        · exact Or.inl h1
        · simp at h2
        · right; right; left
          simpa using h3
      · split at h
        · rename_i hemp
          right; right; right; left
          rintro ⟨qs', heq, hne⟩
          cases heq
          exact hne (List.isEmpty_iff.mp hemp)
        · rw [questionsErr_isSome] at h
          right; right; right; right
          exact ⟨qs, rfl, h⟩
    · intro h
      rcases h with h | h | h | h | h
      · simp [h]
      · simp at h
      · simp [h]
      · have hemp : qs = [] := by
          by_contra hne
          exact h ⟨qs, rfl, hne⟩
        subst hemp
        split <;> simp
      · obtain ⟨qs', heq, hex⟩ := h
        cases heq
        have hne : qs ≠ [] := by rintro rfl; simp at hex
        have hqe := (questionsErr_isSome qs).mpr hex
        split
        · simp
        · simp [List.isEmpty_iff, hne, hqe]

/-- C1 counterexample: with student 10 having already taken quiz 1,
a second `submitQuiz` answers with HTTP status 400 and success flag
false — not an HTTP-level success response as the claim states — even
though it does return the prior attempt and leaves the store
unchanged. -/
theorem c1_already_taken_is_400_not_success :
    (submitQuiz false 1 10 0 (some exAns3) dbTaken).1 = HResp.json 400 false (some prevAttempt)
    ∧ ¬ isHttpSuccess (submitQuiz false 1 10 0 (some exAns3) dbTaken).1
    ∧ (submitQuiz false 1 10 0 (some exAns3) dbTaken).2 = dbTaken := by
  have h : submitQuiz false 1 10 0 (some exAns3) dbTaken
      = (HResp.json 400 false (some prevAttempt), dbTaken) := by
    simp [submitQuiz, dbTaken, prevAttempt, exAns3, List.find?]
  refine ⟨by rw [h], ?_, by rw [h]⟩
  rw [h]
  rintro ⟨s, b, p, heq, h1, h2⟩
  cases heq
  omega

/-- C1 (amended): for every (studentId, quizId) pair for which a
CompletedAttempt already exists, calling submitQuiz again creates no
second CompletedAttempt — the store comes back unchanged — and
returns the existing attempt's data in a direct JSON response with
HTTP status 400 and success flag false (sent directly, not routed
through the error-handler middleware). -/
theorem c1_submitQuiz_already_taken (sf : Bool) (quizId userId now : Nat)
    (ans : Option (List AnswerInput)) (db : DB) (prev : CompletedAttempt)
    (hp : db.attempts.find? (fun a => a.quiz == quizId && a.student == userId) = some prev) :
    submitQuiz sf quizId userId now ans db = (HResp.json 400 false (some prev), db) :=
  submitQuiz_prior sf quizId userId now ans db prev hp

/-- C1 witness: the amended statement evaluated on the concrete
already-taken store. -/
theorem c1_submitQuiz_already_taken_witness :
    submitQuiz false 1 10 0 (some exAns3) dbTaken
      = (HResp.json 400 false (some prevAttempt), dbTaken) :=
  c1_submitQuiz_already_taken false 1 10 0 (some exAns3) dbTaken prevAttempt
    (by simp [dbTaken, prevAttempt, List.find?])

/-- C2: when every question index is covered by the answers array,
submitQuiz records an attempt whose score is the count of positions
at which the question's correctAnswer equals the answer's
selectedOption (position-aligned); on the specification's 3-question
example with correct answers A, B, C and selections A, B, X the score
is 2 and the percentage is 200/3, which rounds to 66.67. -/
theorem c2_submitQuiz_score_index_aligned (sf : Bool) (quizId userId now : Nat)
    (ans : List AnswerInput) (db : DB) (quiz : Quiz)
    (hno : db.attempts.find? (fun a => a.quiz == quizId && a.student == userId) = none)
    (hq : db.quizzes.find? (fun q => q.qzid == quizId) = some quiz)
    (hcov : quiz.questions.length ≤ ans.length) :
    (∃ sn, (submitQuiz sf quizId userId now (some ans) db).2.attempts
        = db.attempts ++
            [{ student := userId, quiz := quizId,
               score := idxMatchCount quiz.questions ans,
               totalQuestions := quiz.questions.length,
               percentage := percentageOf (idxMatchCount quiz.questions ans) quiz.questions.length,
               questions := sn, completedAt := now }])
    ∧ (submitQuiz false 1 10 20 (some exAns3) exDb).1 = HResp.json 200 true (some exAttempt)
    ∧ exAttempt.score = 2
    ∧ idxMatchCount exQuiz3.questions exAns3 = 2
    ∧ exAttempt.percentage = some (200 / 3)
    ∧ (⌊(200 / 3 : Rat) * 100 + 1 / 2⌋ : Int) = 6667 := by
  have hsc := computeScore_ok_of_cov quiz.questions ans hcov
  obtain ⟨sn, hsn⟩ := mkSnapshot_ok quiz.questions (some ans) _ hsc
  have heq := submitQuiz_creates sf quizId userId now (some ans) db quiz _ sn hno hq hsc hsn
  refine ⟨⟨sn, ?_⟩,
          by simp [submitQuiz, exDb, exQuiz3, exAns3, exAttempt, List.find?, computeScore,
                   scoreLoop, mkSnapshot, snapLoop, percentageOf]; norm_num,
          rfl,
          by simp [idxMatchCount, exQuiz3, exAns3],
          rfl,
          by norm_num [Int.floor_eq_iff]⟩
  rw [heq]
  cases sf <;> simp

/-- C2 witness: the scoring statement evaluated on the concrete
example store. -/
theorem c2_submitQuiz_score_index_aligned_witness :
    ∃ sn, (submitQuiz false 1 10 20 (some exAns3) exDb).2.attempts
        = exDb.attempts ++
            [{ student := 10, quiz := 1,
               score := idxMatchCount exQuiz3.questions exAns3,
               totalQuestions := exQuiz3.questions.length,
               percentage := percentageOf (idxMatchCount exQuiz3.questions exAns3) exQuiz3.questions.length,
               questions := sn, completedAt := 20 }] :=
  (c2_submitQuiz_score_index_aligned false 1 10 20 exAns3 exDb exQuiz3
    rfl rfl (by decide)).1

/-- C3: every CompletedAttempt newly created by submitQuiz has a
score between 0 and its totalQuestions inclusive, its percentage is
exactly the code's `(score / totalQuestions) * 100` value, and for a
non-zero totalQuestions that value equals `100 * score /
totalQuestions`. -/
theorem c3_submitQuiz_attempt_bounds (sf : Bool) (quizId userId now : Nat)
    (ans : Option (List AnswerInput)) (db : DB) (a : CompletedAttempt)
    (ha : a ∈ (submitQuiz sf quizId userId now ans db).2.attempts)
    (hnew : a ∉ db.attempts) :
    a.score ≤ a.totalQuestions
    ∧ a.percentage = percentageOf a.score a.totalQuestions
    ∧ (a.totalQuestions ≠ 0 →
        a.percentage = some ((100 * a.score : Rat) / (a.totalQuestions : Rat))) := by
  cases hfind : db.attempts.find? (fun x => x.quiz == quizId && x.student == userId) with
  | some prev =>
    rw [submitQuiz_prior sf quizId userId now ans db prev hfind] at ha
    exact absurd ha hnew
  | none =>
    cases hq : db.quizzes.find? (fun q => q.qzid == quizId) with
    | none =>
      rw [(submitQuiz_db_unchanged_of_error sf quizId userId now ans db hfind).1 hq] at ha
      exact absurd ha hnew
    | some quiz =>
      cases hsc : computeScore quiz.questions ans with
      | error e =>
        rw [(submitQuiz_db_unchanged_of_error sf quizId userId now ans db hfind).2 quiz e hq hsc] at ha
        exact absurd ha hnew
      | ok n =>
        obtain ⟨sn, hsn⟩ := mkSnapshot_ok quiz.questions ans n hsc
        have heq := submitQuiz_creates sf quizId userId now ans db quiz n sn hfind hq hsc hsn
        have hatt : (submitQuiz sf quizId userId now ans db).2.attempts
            = db.attempts ++
                [{ student := userId, quiz := quizId, score := n,
                   totalQuestions := quiz.questions.length,
                   percentage := percentageOf n quiz.questions.length,
                   questions := sn, completedAt := now }] := by
          rw [heq]; cases sf <;> simp
        rw [hatt] at ha
        rcases List.mem_append.mp ha with h | h
        · exact absurd h hnew
        · rw [List.mem_singleton] at h
          subst h
          refine ⟨computeScore_le quiz.questions ans n hsc, rfl, ?_⟩
          intro ht
          exact percentageOf_eq n quiz.questions.length ht

/-- C3 witness: the bounds evaluated on the attempt created by the
concrete example submission. -/
theorem c3_submitQuiz_attempt_bounds_witness :
    exAttempt.score ≤ exAttempt.totalQuestions
    ∧ exAttempt.percentage = percentageOf exAttempt.score exAttempt.totalQuestions
    ∧ (exAttempt.totalQuestions ≠ 0 →
        exAttempt.percentage = some ((100 * exAttempt.score : Rat) / (exAttempt.totalQuestions : Rat))) := by
  have h2 : (submitQuiz false 1 10 20 (some exAns3) exDb).2.attempts = [exAttempt] := by
    simp [submitQuiz, exDb, exQuiz3, exAns3, exAttempt, List.find?, computeScore,
          scoreLoop, mkSnapshot, snapLoop, percentageOf]
    norm_num
  exact c3_submitQuiz_attempt_bounds false 1 10 20 (some exAns3) exDb exAttempt
    (by rw [h2]; exact List.mem_singleton.mpr rfl) (by simp [exDb])

/-- C4: when `Score.create` fails after the CompletedAttempt was
persisted, the whole submission fails with the 500 InternalError
"Failed to save score" while the already-committed attempt remains in
the store and the Score store is untouched. -/
theorem c4_submitQuiz_score_failure (quizId userId now : Nat)
    (ans : Option (List AnswerInput)) (db : DB) (quiz : Quiz) (n : Nat)
    (hno : db.attempts.find? (fun a => a.quiz == quizId && a.student == userId) = none)
    (hq : db.quizzes.find? (fun q => q.qzid == quizId) = some quiz)
    (hsc : computeScore quiz.questions ans = .ok n) :
    ∃ attempt,
      submitQuiz true quizId userId now ans db
        = (HResp.handlerError "Failed to save score" 500,
           { db with attempts := db.attempts ++ [attempt] })
      ∧ respStatus (submitQuiz true quizId userId now ans db).1 = 500
      ∧ (submitQuiz true quizId userId now ans db).2.scores = db.scores := by
  obtain ⟨sn, hsn⟩ := mkSnapshot_ok quiz.questions ans n hsc
  have heq := submitQuiz_creates true quizId userId now ans db quiz n sn hno hq hsc hsn
  rw [if_pos rfl] at heq
  exact ⟨_, heq, by rw [heq]; rfl, by rw [heq]⟩


/-- C4 witness: the partial-failure statement evaluated on the
concrete example store with a failing `Score.create`. -/
theorem c4_submitQuiz_score_failure_witness :
    (submitQuiz true 1 10 20 (some exAns3) exDb).1
      = HResp.handlerError "Failed to save score" 500 := by
  obtain ⟨a, h, -, -⟩ := c4_submitQuiz_score_failure 1 10 20 (some exAns3) exDb exQuiz3 2
    rfl rfl rfl
  rw [h]

/-- C10 counterexample to the claim as stated: for a quiz whose
question list is empty (reachable through `deleteQuestion`), a
submission with a missing answers array does not throw — the forEach
body never runs — and a CompletedAttempt is created. -/
theorem c10_empty_quiz_missing_answers_no_throw :
    (submitQuiz false 5 9 0 none dbEmptyQuiz).1
      = HResp.json 200 true (some { student := 9, quiz := 5, score := 0, totalQuestions := 0,
                                    percentage := none, questions := [], completedAt := 0 })
    ∧ (submitQuiz false 5 9 0 none dbEmptyQuiz).2.attempts
      = [{ student := 9, quiz := 5, score := 0, totalQuestions := 0,
           percentage := none, questions := [], completedAt := 0 }] := by
  constructor <;> decide

/-- C10 (amended): for every submission with no prior attempt on a
quiz with at least one question, where the answers array is shorter
than the question list or missing, the scoring loop's index access
throws before any CompletedAttempt or ScoreRecord is created: the
store comes back unchanged and the request surfaces as a thrown
runtime error (status 500 at the centralized responder), not an
`ErrorHandler` ValidationError. -/
theorem c10_submitQuiz_short_answers_throws (sf : Bool) (quizId userId now : Nat)
    (ans : Option (List AnswerInput)) (db : DB) (quiz : Quiz)
    (hno : db.attempts.find? (fun a => a.quiz == quizId && a.student == userId) = none)
    (hq : db.quizzes.find? (fun q => q.qzid == quizId) = some quiz)
    (hne : quiz.questions ≠ [])
    (hshort : ans = none ∨ ∃ l, ans = some l ∧ l.length < quiz.questions.length) :
    ∃ e, submitQuiz sf quizId userId now ans db = (HResp.thrown e, db)
      ∧ respStatus (HResp.thrown e) = 500
      ∧ ∀ m s, HResp.thrown e = HResp.handlerError m s → False := by
  obtain ⟨e, he⟩ := computeScore_error_short quiz.questions hne ans hshort
  refine ⟨e, (submitQuiz_db_unchanged_of_error sf quizId userId now ans db hno).2 quiz e hq he,
          rfl, ?_⟩
  intro m s h
  cases h

/-- C10 witness: the amended statement evaluated on a one-answer
submission against the 3-question example quiz. -/
theorem c10_submitQuiz_short_answers_throws_witness :
    ∃ e, submitQuiz false 1 10 0 (some [{ selectedOption := "A" }]) exDb = (HResp.thrown e, exDb)
      ∧ respStatus (HResp.thrown e) = 500
      ∧ ∀ m s, HResp.thrown e = HResp.handlerError m s → False :=
  c10_submitQuiz_short_answers_throws false 1 10 0 (some [{ selectedOption := "A" }]) exDb exQuiz3
    (by decide) (by decide) (by decide)
    (Or.inr ⟨[{ selectedOption := "A" }], rfl, by decide⟩)

/-- C5: addQuiz (and updateQuiz, which applies the same validation)
fails with a 400 ValidationError exactly when title, questions or
duration is missing, when questions is not a non-empty array, when a
question lacks text, options or correctAnswer, or when a question's
options value is not a non-empty array; every input passing the
validation makes addQuiz append a new Quiz owned by the creator. -/
theorem c5_addQuiz_validation (b : QuizBody) (creatorId newId now upId : Nat) (db : DB) :
    ((∃ msg, (addQuiz b creatorId newId now db).1 = QuizResp.validationErr msg)
        ↔ addQuizRejects b)
    ∧ ((∃ msg, (updateQuiz upId b db).1 = QuizResp.validationErr msg) ↔ addQuizRejects b)
    ∧ (¬ addQuizRejects b →
        (addQuiz b creatorId newId now db).2.quizzes
          = db.quizzes ++
              [{ qzid := newId, title := b.title, description := b.description,
                 questions := bodyQuestions b.questions, duration := b.duration,
                 createdBy := creatorId, createdAt := now }]) := by
  cases hv : validateQuizBody b with
  | some msg =>
    have hrej : addQuizRejects b := (validateQuizBody_isSome b).mp (by simp [hv])
    refine ⟨⟨fun _ => hrej, fun _ => ⟨msg, by simp [addQuiz, hv]⟩⟩,
            ⟨fun _ => hrej, fun _ => ⟨msg, by simp [updateQuiz, hv]⟩⟩,
            fun hn => absurd hrej hn⟩
  | none =>
    have hrej : ¬ addQuizRejects b := by
      rw [← validateQuizBody_isSome b, hv]
      simp
    refine ⟨⟨?_, fun h => absurd h hrej⟩, ⟨?_, fun h => absurd h hrej⟩, ?_⟩
    · rintro ⟨msg, hmsg⟩
      simp [addQuiz, hv] at hmsg
    · rintro ⟨msg, hmsg⟩
      simp only [updateQuiz, hv] at hmsg
      cases hf : db.quizzes.find? (fun q => q.qzid == upId) <;>
        rw [hf] at hmsg <;> simp at hmsg
    · intro _
      simp [addQuiz, hv]

/-- C5 witness: the fully falsy body is rejected; obtained by
applying the validation equivalence to the concrete body. -/
theorem c5_addQuiz_validation_witness : addQuizRejects badBody :=
  ((c5_addQuiz_validation badBody 1 2 3 4 exDb).1).mp
    ⟨"Title, questions, and duration are required!", rfl⟩

/-- C6: getAllQuizzes returns every quiz for an admin requester; for
a non-admin requester it returns the most recently created quiz
followed by the quiz referenced by each of the requester's completed
attempts, with unresolved (null) references dropped and no
deduplication by quiz id; on the concrete listing store the
non-admin student with two completed attempts receives exactly 3
items, the latest quiz appearing twice. -/
theorem c6_getAllQuizzes_spec (role : String) (userId : Nat) (db : DB) :
    (role = "admin" → getAllQuizzes role userId db = db.quizzes)
    ∧ (role ≠ "admin" →
        getAllQuizzes role userId db
          = (latestQuiz db.quizzes).toList
              ++ (db.attempts.filter (fun a => a.student == userId)).filterMap
                   (fun a => db.quizzes.find? (fun q => q.qzid == a.quiz)))
    ∧ getAllQuizzes "student" 10 dbListing = [exQuizB, exQuizB, exQuiz3]
    ∧ (getAllQuizzes "student" 10 dbListing).length = 3 := by
  refine ⟨?_, ?_, ?_, ?_⟩
  · intro h
    simp [getAllQuizzes, h]
  · intro h
    have hb : (role == "admin") = false := by simp [h]
    simp only [getAllQuizzes, hb, Bool.false_eq_true, if_false]
    cases hl : latestQuiz db.quizzes <;>
      simp [hl, List.filterMap_cons, List.filterMap_map, Function.comp_def]
  · decide
  · decide

/-- C6 witness: the admin case evaluated on the concrete listing
store. -/
theorem c6_getAllQuizzes_spec_witness : getAllQuizzes "admin" 0 dbListing = dbListing.quizzes :=
  (c6_getAllQuizzes_spec "admin" 0 dbListing).1 rfl

/-- C7 counterexample to the claim as stated: student 7 has one
CompletedAttempt but its quiz was deleted, so the resulting list is
empty, yet the handler answers with a success carrying the empty list
rather than NotFound — the emptiness check runs before the
dangling-quiz filter. -/
theorem c7_dangling_quizzes_not_404 :
    getCompletedQuizzes 7 dbDangling = CompletedResp.ok []
    ∧ getCompletedQuizzes 7 dbDangling ≠ CompletedResp.notFoundErr
    ∧ dbDangling.attempts ≠ [] := by
  refine ⟨by decide, by decide, by decide⟩

/-- C7 (amended): getCompletedQuizzes returns the student's attempts
newest first with the referenced quiz resolved, dropping every entry
whose quiz no longer exists, and fails with NotFound exactly when the
student has no CompletedAttempts at all (so an all-dangling non-empty
attempt list yields a success with an empty list, not a 404). -/
theorem c7_getCompletedQuizzes_spec (studentId : Nat) (db : DB) :
    (getCompletedQuizzes studentId db = CompletedResp.notFoundErr
        ↔ db.attempts.filter (fun a => a.student == studentId) = [])
    ∧ ∀ items, getCompletedQuizzes studentId db = CompletedResp.ok items →
        items = (sortDescBy (fun a => a.completedAt)
                    (db.attempts.filter (fun a => a.student == studentId))).filterMap
                  (resolveAttempt db)
        ∧ items.Pairwise (fun x y => y.summary.completedAt ≤ x.summary.completedAt)
        ∧ ∀ it ∈ items, it.quiz ∈ db.quizzes := by
  by_cases hemp :
      (sortDescBy (fun a => a.completedAt)
        (db.attempts.filter (fun a => a.student == studentId))).isEmpty = true
  · have h404 : getCompletedQuizzes studentId db = CompletedResp.notFoundErr := by
      simp only [getCompletedQuizzes, hemp, if_true]
    have hln : db.attempts.filter (fun a => a.student == studentId) = [] := by
      rw [← sortDescBy_eq_nil_iff (fun a => a.completedAt)]
      exact List.isEmpty_iff.mp hemp
    refine ⟨⟨fun _ => hln, fun _ => h404⟩, ?_⟩
    intro items hit
    rw [h404] at hit
    cases hit
  · have hok : getCompletedQuizzes studentId db
        = CompletedResp.ok
            ((sortDescBy (fun a => a.completedAt)
                (db.attempts.filter (fun a => a.student == studentId))).filterMap
              (resolveAttempt db)) := by
      simp only [getCompletedQuizzes, hemp, Bool.false_eq_true, if_false]
    have hln : db.attempts.filter (fun a => a.student == studentId) ≠ [] := by
      intro h
      apply hemp
      rw [(sortDescBy_eq_nil_iff (fun a => a.completedAt) _).mpr h]
      rfl
    refine ⟨⟨?_, fun h => absurd h hln⟩, ?_⟩
    · intro h
      rw [hok] at h
      cases h
    · intro items hit
      rw [hok] at hit
      cases hit
      refine ⟨rfl, ?_, ?_⟩
      · refine List.Pairwise.filterMap (resolveAttempt db) ?_
          (pairwise_sortDescBy (fun a => a.completedAt) _)
        intro a a' hle x hx y hy
        rw [Option.mem_def] at hx hy
        simp only [resolveAttempt, Option.map_eq_some'] at hx hy
        obtain ⟨qa, -, rfl⟩ := hx
        obtain ⟨qb, -, rfl⟩ := hy
        exact hle
      · intro it hmem
        rw [List.mem_filterMap] at hmem
        obtain ⟨a, -, hres⟩ := hmem
        simp only [resolveAttempt, Option.map_eq_some'] at hres
        obtain ⟨qz, hfind, rfl⟩ := hres
        exact List.mem_of_find?_eq_some hfind

/-- C7 witness: the amended statement evaluated for student 10 on the
concrete listing store (two attempts, both resolving, newest
first). -/
theorem c7_getCompletedQuizzes_spec_witness :
    listingItems = (sortDescBy (fun a => a.completedAt)
                      (dbListing.attempts.filter (fun a => a.student == 10))).filterMap
                    (resolveAttempt dbListing)
    ∧ listingItems.Pairwise (fun x y => y.summary.completedAt ≤ x.summary.completedAt)
    ∧ ∀ it ∈ listingItems, it.quiz ∈ dbListing.quizzes :=
  (c7_getCompletedQuizzes_spec 10 dbListing).2 listingItems (by decide)

/-- C8: every leaderboard list is sorted by score in descending order
and contains only ScoreRecords whose quiz reference equals the
requested quizId. -/
theorem c8_getQuizLeaderboard_sorted (qid : Nat) (db : DB) (entries : List ScoreRecord)
    (h : getQuizLeaderboard (some qid) db = LeaderboardResp.ok entries) :
    entries.Pairwise (fun x y => y.score ≤ x.score)
    ∧ ∀ r ∈ entries, r.quizId = qid := by
  simp only [getQuizLeaderboard] at h
  cases h
  refine ⟨pairwise_sortDescBy (fun r : ScoreRecord => r.score) _, ?_⟩
  intro r hr
  rw [mem_sortDescBy] at hr
  have := (List.mem_filter.mp hr).2
  simpa using this

/-- C8 witness: the sortedness statement evaluated on the concrete
score store (two records for quiz 1, higher score first). -/
theorem c8_getQuizLeaderboard_sorted_witness :
    lbEntries.Pairwise (fun x y => y.score ≤ x.score)
    ∧ ∀ r ∈ lbEntries, r.quizId = 1 :=
  c8_getQuizLeaderboard_sorted 1 dbScores lbEntries rfl

/-- Under unique quiz ids, the first `find?` hit for an id is the
only element carrying that id. -/
theorem find?_unique_of_nodup (l : List Quiz) (k : Nat) :
    ∀ (a : Quiz), (l.map (fun q => q.qzid)).Nodup →
      l.find? (fun q => q.qzid == k) = some a →
      ∀ x ∈ l, x.qzid = k → x = a := by
  induction l with
  | nil => intro a _ h; cases h
  | cons b bs ih =>
    intro a hnd h x hx hxk
    rw [List.map_cons, List.nodup_cons] at hnd
    rcases List.mem_cons.mp hx with rfl | hx2
    · rw [List.find?_cons_of_pos _ (by simp [hxk])] at h
      simpa using h
    · by_cases hbk : (b.qzid == k) = true
      · exfalso
        apply hnd.1
        rw [show b.qzid = k by simpa using hbk, ← hxk]
        exact List.mem_map_of_mem _ hx2
      · rw [List.find?_cons_of_neg _ (by simpa using hbk)] at h
        exact ih a hnd.2 h x hx2 hxk

/-- Replacing, via `map`, every element whose id matches by a value
with the same id moves the first `find?` hit to that value. -/
theorem find?_map_update (l : List Quiz) (k : Nat) (b : Quiz) :
    ∀ (a : Quiz), l.find? (fun q => q.qzid == k) = some a → b.qzid = a.qzid →
      (l.map (fun q => if q.qzid == k then b else q)).find? (fun q => q.qzid == k) = some b := by
  induction l with
  | nil => intro a h; cases h
  | cons x xs ih =>
    intro a h hb
    by_cases hxk : (x.qzid == k) = true
    · rw [List.find?_cons_of_pos _ (by simpa using hxk)] at h
      injection h with h2
      subst h2
      rw [List.map_cons, if_pos hxk]
      refine List.find?_cons_of_pos _ ?_
      show (b.qzid == k) = true
      rw [hb]
      exact hxk
    · rw [List.find?_cons_of_neg _ (by simpa using hxk)] at h
      rw [List.map_cons, if_neg hxk]
      rw [List.find?_cons_of_neg _ (by simpa using hxk)]
      exact ih a h hb

/-- A `map` that replaces matching elements by themselves is the
identity. -/
theorem map_update_id (l : List Quiz) (k : Nat) (b : Quiz)
    (h : ∀ x ∈ l, x.qzid = k → x = b) :
    l.map (fun q => if q.qzid == k then b else q) = l := by
  induction l with
  | nil => rfl
  | cons x xs ih =>
    rw [List.map_cons, ih (fun y hy => h y (List.mem_cons_of_mem _ hy))]
    by_cases hxk : (x.qzid == k) = true
    · rw [if_pos hxk, ← h x (List.mem_cons_self x xs) (by simpa using hxk)]
    · rw [if_neg hxk]

/-- C9: deleting a question from an existing quiz (with unique quiz
ids in the store) always succeeds; the stored quiz keeps exactly the
questions whose id differs from questionId, and when nothing matches
the whole store comes back unchanged. -/
theorem c9_deleteQuestion_spec (quizId questionId : Nat) (db : DB) (quiz : Quiz)
    (hq : db.quizzes.find? (fun q => q.qzid == quizId) = some quiz)
    (hnd : (db.quizzes.map (fun q => q.qzid)).Nodup) :
    (deleteQuestion quizId questionId db).1 = DelResp.ok
    ∧ (deleteQuestion quizId questionId db).2.quizzes.find? (fun q => q.qzid == quizId)
        = some { quiz with questions := quiz.questions.filter (fun q => q.qid != questionId) }
    ∧ (∀ q, q ∈ quiz.questions.filter (fun qq => qq.qid != questionId)
          ↔ q ∈ quiz.questions ∧ q.qid ≠ questionId)
    ∧ ((∀ q ∈ quiz.questions, q.qid ≠ questionId) →
        (deleteQuestion quizId questionId db).2 = db) := by
  refine ⟨by simp [deleteQuestion, hq], ?_, ?_, ?_⟩
  · have h2 : (deleteQuestion quizId questionId db).2.quizzes
        = db.quizzes.map (fun q => if q.qzid == quizId then
            { quiz with questions := quiz.questions.filter (fun q => q.qid != questionId) }
          else q) := by
      simp [deleteQuestion, hq]
    rw [h2]
    exact find?_map_update db.quizzes quizId _ quiz hq rfl
  · intro q
    rw [List.mem_filter]
    simp [bne_iff_ne]
  · intro hnomatch
    have hfe : quiz.questions.filter (fun q => q.qid != questionId) = quiz.questions := by
      rw [List.filter_eq_self]
      intro q hq2
      simpa [bne_iff_ne] using hnomatch q hq2
    have h2 : (deleteQuestion quizId questionId db).2
        = { db with quizzes := db.quizzes.map (fun q => if q.qzid == quizId then
              { quiz with questions := quiz.questions.filter (fun q => q.qid != questionId) }
            else q) } := by
      simp [deleteQuestion, hq]
    rw [h2, hfe]
    have hid : db.quizzes.map (fun q => if q.qzid == quizId then quiz else q) = db.quizzes := by
      apply map_update_id
      exact find?_unique_of_nodup db.quizzes quizId quiz hnd hq
    simp only [hid]

/-- C9 witness: deleting the unmatched question id 99 from the
concrete listing store leaves everything unchanged. -/
theorem c9_deleteQuestion_spec_witness :
    (deleteQuestion 1 99 dbListing).1 = DelResp.ok
    ∧ (deleteQuestion 1 99 dbListing).2.quizzes.find? (fun q => q.qzid == 1)
        = some { exQuiz3 with questions := exQuiz3.questions.filter (fun q => q.qid != 99) }
    ∧ (∀ q, q ∈ exQuiz3.questions.filter (fun qq => qq.qid != 99)
          ↔ q ∈ exQuiz3.questions ∧ q.qid ≠ 99)
    ∧ ((∀ q ∈ exQuiz3.questions, q.qid ≠ 99) → (deleteQuestion 1 99 dbListing).2 = dbListing) :=
  c9_deleteQuestion_spec 1 99 dbListing exQuiz3 rfl (by decide)
